import Mathlib

/-!
Verification of the retry-and-deduplication core of the jobmatcher
repository against its natural-language specification.

The definitions below are a shallow embedding of the TypeScript source:

* `src/server/services/lib/llmRetry.ts` (rate-limit classifier, backoff
  calculator, inline retry helper);
* `src/server/db/index.ts` (queue upserts, eligibility fetches, retry
  increments, the transactional `createMatchAndCompleteJob`);
* `src/shared/schemas/*.ts` (row shapes and unique constraints);
* `src/server/workers/matchProcessingWorker.ts` (failure handling of one
  queue item);
* `src/server/routes/matching.ts` (per-candidate match dedup);
* `src/server/routes/candidates.ts` (resume upload dedup flow);
* `src/server/services/matching.ts` (`calculateMatchScore`).

Timestamps are rationals counting milliseconds (JavaScript `Date` values
ordered by their underlying millisecond count); `Math.random()` draws are
explicit rational parameters in `[0, 1)`; fallible calls are `Except`
values threaded explicitly.
-/

/-- Digits of a captured regex group folded to a number, as JavaScript
`parseInt` does on a string of decimal digits. -/
def digitsToNat (l : List Char) : Nat :=
  l.foldl (fun a c => a * 10 + (c.toNat - 48)) 0

/-- Leftmost occurrence of a maximal digit run immediately followed by the
character `c`; mirrors the regex `(\d+)m` / `(\d+)s` searches in
`parseDuration` (`llmRetry.ts`). Since `c` is not a digit, backtracking
inside a digit run can never succeed, so only maximal runs matter. -/
def findGroupBefore (c : Char) : List Char → Option Nat
  | [] => none
  | x :: t =>
    let run := (x :: t).takeWhile (fun d => d.isDigit)
    if !run.isEmpty && (((x :: t).drop run.length).head? == some c) then
      some (digitsToNat run)
    else
      findGroupBefore c t

/-- `parseDuration` from `llmRetry.ts`: parses duration strings like
"1s", "6m0s", "1m30s" to milliseconds; absent input parses to `0`. -/
def parseDuration (duration : Option String) : Nat :=
  match duration with
  | none => 0
  | some d =>
    let minutesMatch := findGroupBefore 'm' d.toList
    let secondsMatch := findGroupBefore 's' d.toList
    (match minutesMatch with | some m => m * 60 * 1000 | none => 0) +
    (match secondsMatch with | some s => s * 1000 | none => 0)

/-- Boolean infix search on character lists, the semantics of JavaScript
`String.prototype.includes` used by the classifier. -/
def charsInfixOf (p : List Char) : List Char → Bool
  | [] => p.isEmpty
  | c :: t => p.isPrefixOf (c :: t) || charsInfixOf p t

/-- ASCII case folding of one character, the effect of JavaScript
`toLowerCase()` on the ASCII error messages the classifier inspects. -/
def charToLower (c : Char) : Char :=
  if 65 ≤ c.toNat ∧ c.toNat ≤ 90 then Char.ofNat (c.toNat + 32) else c

/-- `message.toLowerCase()` as a character list. -/
def lowerChars (s : String) : List Char :=
  s.toList.map charToLower

/-- `message.includes(pat)` on the lowercased message. -/
def strContainsSubstr (s : List Char) (pat : String) : Bool :=
  charsInfixOf pat.toList s

/-- Shape of a JavaScript error value as inspected by `llmRetry.ts`:
whether it is an instance of the `RateLimitError` class, numeric
`status`/`statusCode` fields, a `message`, and rate-limit reset headers
either directly on the error or under `response.headers`. -/
structure JsError where
  rateLimitInstance : Bool
  status : Option Nat
  statusCode : Option Nat
  message : Option String
  headers : Option (List (String × String))
  responseHeaders : Option (List (String × String))
deriving DecidableEq

/-- Lookup of a header key in a JavaScript header record. -/
def headerLookup (h : List (String × String)) (k : String) : Option String :=
  (h.find? (fun p => p.1 == k)).map (fun p => p.2)

/-- `isRateLimitError` from `llmRetry.ts`: instance check, 429 status
codes, then textual match on the lowercased message. -/
def isRateLimitError (e : JsError) : Bool :=
  if e.rateLimitInstance then true
  else if e.status == some 429 || e.statusCode == some 429 then true
  else
    let msg := lowerChars (e.message.getD "")
    strContainsSubstr msg "rate limit" ||
    strContainsSubstr msg "too many requests" ||
    strContainsSubstr msg "429"

/-- `err.headers || err.response?.headers` from `parseRateLimitReset`. -/
def headersOf (e : JsError) : Option (List (String × String)) :=
  match e.headers with
  | some h => some h
  | none => e.responseHeaders

/-- Header key for the request-rate reset hint. -/
def rlRequestsKey : String := "x-ratelimit-reset-requests"

/-- Header key for the token-rate reset hint. -/
def rlTokensKey : String := "x-ratelimit-reset-tokens"

/-- `parseRateLimitReset` from `llmRetry.ts`: reads both reset headers,
takes the longer of the two windows, and returns `now + maxWait` when
that is positive. -/
def parseRateLimitReset (e : JsError) (now : ℚ) : Option ℚ :=
  match headersOf e with
  | none => none
  | some headers =>
    let requestsMs := parseDuration (headerLookup headers rlRequestsKey)
    let tokensMs := parseDuration (headerLookup headers rlTokensKey)
    let maxWait := Nat.max requestsMs tokensMs
    if 0 < maxWait then some (now + (maxWait : ℚ)) else none

/-- Fallback branch of `calculateNextRetry`: a fixed 60-second window with
`baseDelay * 0.1 * (Math.random() * 2 - 1)` jitter. -/
def fallbackNextRetry (now r : ℚ) : ℚ :=
  let baseDelay : ℚ := 60 * 1000
  let jitter := baseDelay * (1 / 10) * (r * 2 - 1)
  now + (baseDelay + jitter)

/-- `calculateNextRetry(attemptCount, error)` from `llmRetry.ts`. The
current time `now` and the single `Math.random()` draw `r` of the taken
branch are explicit parameters. -/
def calculateNextRetry (attemptCount : Nat) (error : Option JsError) (now r : ℚ) : ℚ :=
  match error with
  | some e =>
    match parseRateLimitReset e now with
    | some resetTime => resetTime + (r * 2000 - 1000)
    | none => fallbackNextRetry now r
  | none =>
    let _ := attemptCount
    fallbackNextRetry now r

/-- Result of one run of `retryWithBackoff`: the value, the distinguished
`RateLimitError` exhaustion throw, an immediately propagated non-rate-limit
error, or the unreachable fall-through after the loop. -/
inductive RetryOutcome (T : Type) where
  | ok (value : T)
  | rateLimitExhausted
  | hard (e : JsError)
  | fallbackThrow
deriving DecidableEq

/-- A finished `retryWithBackoff` run: its outcome together with how many
backoff sleeps happened and how many times the action was invoked. -/
structure RetryResult (T : Type) where
  outcome : RetryOutcome T
  sleeps : Nat
  calls : Nat
deriving DecidableEq

/-- The `for (let attempt = 0; attempt <= maxRetries; attempt++)` loop of
`retryWithBackoff`; `fuel` is the number of remaining loop iterations and
the `fuel = 0` case is the unreachable `throw lastError` after the loop.
The action is indexed by the attempt number so successive invocations can
differ. -/
def retryLoop {T : Type} (fn : Nat → Except JsError T) (maxRetries : Nat) :
    Nat → Nat → RetryResult T
  | _, 0 => ⟨.fallbackThrow, 0, 0⟩
  | attempt, fuel + 1 =>
    match fn attempt with
    | .ok v => ⟨.ok v, 0, 1⟩
    | .error e =>
      if isRateLimitError e then
        if attempt < maxRetries then
          let rest := retryLoop fn maxRetries (attempt + 1) fuel
          ⟨rest.outcome, rest.sleeps + 1, rest.calls + 1⟩
        else ⟨.rateLimitExhausted, 0, 1⟩
      else ⟨.hard e, 0, 1⟩

/-- `retryWithBackoff(fn, maxRetries)` from `llmRetry.ts`. -/
def retryWithBackoff {T : Type} (fn : Nat → Except JsError T) (maxRetries : Nat) :
    RetryResult T :=
  retryLoop fn maxRetries 0 (maxRetries + 1)

/-- One row of a retry-queue table (`src/shared/schemas/queues.ts`); all
four queue kinds share this shape, differing only in the owner-key type
`κ` (a single foreign id or, for the match queue, a pair). -/
structure QueueRow (κ : Type) where
  id : String
  ownerKey : κ
  status : String
  attemptCount : Nat
  nextRetryAt : Option ℚ
  lastError : Option String
deriving DecidableEq

/-- The shared `INSERT ... ON CONFLICT (ownerKey) DO UPDATE SET status =
pending, attemptCount = 0, nextRetryAt = null, lastError = null` of the
four `addTo*Queue` methods in `db/index.ts`; fresh rows take the schema
defaults. -/
def enqueue {κ : Type} [DecidableEq κ] (rows : List (QueueRow κ)) (key : κ)
    (freshId : String) : List (QueueRow κ) :=
  if rows.any (fun row => decide (row.ownerKey = key)) then
    rows.map (fun row =>
      if row.ownerKey = key then
        { row with status := "pending", attemptCount := 0,
                   nextRetryAt := none, lastError := none }
      else row)
  else
    rows ++ [⟨freshId, key, "pending", 0, none, none⟩]

/-- Eligibility predicate of the `getRetryable*Jobs` queries:
`status = pending AND (nextRetryAt IS NULL OR nextRetryAt <= now)`. -/
def isEligible {κ : Type} (row : QueueRow κ) (now : ℚ) : Bool :=
  row.status == "pending" &&
    (match row.nextRetryAt with
     | none => true
     | some t => decide (t ≤ now))

/-- The shared body of the `getRetryable*Jobs` queries (no limit passed by
the workers). -/
def getRetryableJobs {κ : Type} (rows : List (QueueRow κ)) (now : ℚ) :
    List (QueueRow κ) :=
  rows.filter (fun row => isEligible row now)

/-- `addToMatchQueue(candidateId, jobDescriptionId)` from `db/index.ts`:
upsert keyed on the `(candidateId, jobDescriptionId)` unique pair. -/
def addToMatchQueue (rows : List (QueueRow (String × String)))
    (candidateId jobDescriptionId freshId : String) : List (QueueRow (String × String)) :=
  enqueue rows (candidateId, jobDescriptionId) freshId

/-- `getRetryableMatchJobs()` from `db/index.ts`. -/
def getRetryableMatchJobs (rows : List (QueueRow (String × String))) (now : ℚ) :
    List (QueueRow (String × String)) :=
  getRetryableJobs rows now

/-- `incrementMatchRetry(id, error, nextRetryAt)` from `db/index.ts`:
`SET attempt_count = attempt_count + 1, last_error = error,
next_retry_at = nextRetryAt WHERE id = id`. -/
def incrementMatchRetry (rows : List (QueueRow (String × String))) (id : String)
    (error : String) (nextRetryAt : ℚ) : List (QueueRow (String × String)) :=
  rows.map (fun row =>
    if row.id = id then
      { row with attemptCount := row.attemptCount + 1,
                 lastError := some error,
                 nextRetryAt := some nextRetryAt }
    else row)

/-- `MAX_RETRIES` from `matchProcessingWorker.ts`. -/
def MAX_RETRIES : Nat := 3

/-- Milliseconds in the far-future parking window
(`365 * 24 * 60 * 60 * 1000` in `matchProcessingWorker.ts`). -/
def msPerYear : ℚ := 365 * 24 * 60 * 60 * 1000

/-- Milliseconds in 300 days, the bound named by the spec's retry-ceiling
property. -/
def ms300Days : ℚ := 300 * 24 * 60 * 60 * 1000

/-- The update the worker's catch block applies to the one failing item
(`matchProcessingWorker.ts`, failure branch): `newAttemptCount =
item.attemptCount + 1`; at the ceiling the retry time is parked one year
out, otherwise `calculateNextRetry(newAttemptCount, error)`. -/
def failItemUpdate (item : QueueRow (String × String)) (errMsg : String)
    (error : Option JsError) (now r : ℚ) : QueueRow (String × String) :=
  let newAttemptCount := item.attemptCount + 1
  if MAX_RETRIES ≤ newAttemptCount then
    { item with attemptCount := item.attemptCount + 1,
                lastError := some errMsg,
                nextRetryAt := some (now + msPerYear) }
  else
    { item with attemptCount := item.attemptCount + 1,
                lastError := some errMsg,
                nextRetryAt := some (calculateNextRetry newAttemptCount error now r) }

/-- The store-level effect of the worker's failure branch: the same
decision as `failItemUpdate` executed through `incrementMatchRetry`. -/
def workerHandleMatchFailure (rows : List (QueueRow (String × String)))
    (item : QueueRow (String × String)) (errMsg : String) (error : Option JsError)
    (now r : ℚ) : List (QueueRow (String × String)) :=
  let newAttemptCount := item.attemptCount + 1
  if MAX_RETRIES ≤ newAttemptCount then
    incrementMatchRetry rows item.id errMsg (now + msPerYear)
  else
    incrementMatchRetry rows item.id errMsg (calculateNextRetry newAttemptCount error now r)

/-- One entry of the `scorecard` JSONB payload
(`Record<string, {weight, score, comments}>` in `schemas/matching.ts`). -/
structure ScorecardEntry where
  weight : Int
  score : Int
  comments : String
deriving DecidableEq

/-- A row of the `match_results` table (`schemas/matching.ts`), carrying
the `(resumeContentHash, jobContentHash)` pair protected by the table's
composite unique constraint. -/
structure MatchResultRow where
  id : String
  resumeContentHash : String
  jobContentHash : String
  jobDescriptionId : String
  candidateId : String
  matchScore : Int
  scorecard : List (String × ScorecardEntry)
  matchingSkills : List String
  analysis : Option String
deriving DecidableEq

/-- The insert payload of `insertMatchResultSchema`. -/
structure InsertMatchResult where
  resumeContentHash : String
  jobContentHash : String
  jobDescriptionId : String
  candidateId : String
  matchScore : Int
  scorecard : List (String × ScorecardEntry)
  matchingSkills : List String
  analysis : Option String
deriving DecidableEq

/-- Whether an insert of `data` would hit the
`UNIQUE (resume_content_hash, job_content_hash)` constraint. -/
def pairConflict (results : List MatchResultRow) (data : InsertMatchResult) : Bool :=
  results.any (fun m =>
    m.resumeContentHash == data.resumeContentHash &&
    m.jobContentHash == data.jobContentHash)

/-- Database errors surfaced by the store. -/
inductive DBError where
  | uniqueViolation
deriving DecidableEq

/-- A plain `INSERT INTO match_results ... RETURNING *` under the pair
unique constraint: PostgreSQL raises a unique violation on conflict (no
`onConflictDoNothing` is attached at this call site in `db/index.ts`). -/
def insertMatchResultRow (results : List MatchResultRow) (data : InsertMatchResult)
    (freshId : String) : Except DBError (MatchResultRow × List MatchResultRow) :=
  if pairConflict results data then .error .uniqueViolation
  else
    let row : MatchResultRow :=
      ⟨freshId, data.resumeContentHash, data.jobContentHash, data.jobDescriptionId,
       data.candidateId, data.matchScore, data.scorecard, data.matchingSkills,
       data.analysis⟩
    .ok (row, results ++ [row])

/-- The slice of the durable store touched by match completion: the
`match_results` table and the `match_processing_queue` table. -/
structure MatchStore where
  results : List MatchResultRow
  queue : List (QueueRow (String × String))
deriving DecidableEq

/-- `createMatchAndCompleteJob(matchData, queueItemId)` from
`db/index.ts`: inside one `db.transaction`, insert the match result and
delete the queue row; an error aborts the transaction, so the caller's
state is unchanged on `.error`. -/
def createMatchAndCompleteJob (s : MatchStore) (data : InsertMatchResult)
    (queueItemId freshId : String) : Except DBError (MatchResultRow × MatchStore) :=
  match insertMatchResultRow s.results data freshId with
  | .error e => .error e
  | .ok (row, results2) =>
    .ok (row, { results := results2,
                queue := s.queue.filter (fun q => !(q.id == queueItemId)) })

/-- Number of stored match results carrying a given hash pair. -/
def countPair (results : List MatchResultRow) (rh jh : String) : Nat :=
  (results.filter (fun m => m.resumeContentHash == rh && m.jobContentHash == jh)).length

/-- Crash-and-replay semantics of the worker completing one queue item:
any attempt that crashes (anywhere inside the transaction, including
between the insert and the delete) rolls the transaction back and leaves
the store unchanged; a completed attempt requires the queue row to still
be present — the worker only processes fetched queue items — and commits
both effects via `createMatchAndCompleteJob`. -/
inductive MatchReplayStep (data : InsertMatchResult) (queueItemId : String) :
    MatchStore → MatchStore → Prop
  | crash (s : MatchStore) : MatchReplayStep data queueItemId s s
  | complete (s s2 : MatchStore) (row : MatchResultRow) (freshId : String)
      (hq : ∃ q ∈ s.queue, q.id = queueItemId)
      (hok : createMatchAndCompleteJob s data queueItemId freshId = .ok (row, s2)) :
      MatchReplayStep data queueItemId s s2

/-- Raw JSON shape parsed out of the scoring response in
`services/matching.ts` before defaulting. -/
structure RawScore where
  score : Option Int
  scorecard : Option (List (String × ScorecardEntry))
  matchingSkills : Option (List String)
  analysis : Option String
deriving DecidableEq

/-- The value `calculateMatchScore` resolves with. -/
structure ScoreJson where
  score : Int
  scorecard : List (String × ScorecardEntry)
  matchingSkills : List String
  analysis : String
deriving DecidableEq

/-- `result.analysis || "No analysis available"`: JavaScript `||` treats
the empty string as falsy. -/
def analysisOrDefault (a : Option String) : String :=
  match a with
  | some s => if s.isEmpty then "No analysis available" else s
  | none => "No analysis available"

/-- `calculateMatchScore` from `services/matching.ts`: on a resolved
inference call the fields are defaulted and the score clamped to
`[0, 100]`; the surrounding `try/catch` swallows every rejection and
resolves with a placeholder result instead of re-throwing. -/
def calculateMatchScore (llm : Except JsError RawScore) : ScoreJson :=
  match llm with
  | .ok result =>
    { score := min 100 (max 0 (result.score.getD 0)),
      scorecard := result.scorecard.getD [],
      matchingSkills := result.matchingSkills.getD [],
      analysis := analysisOrDefault result.analysis }
  | .error _ =>
    { score := 0, scorecard := [], matchingSkills := [],
      analysis := "Failed to calculate match score due to AI service error" }

/-- A row of the `resumes` table as used by the upload path. -/
structure Resume where
  id : String
  contentHash : String
  fileName : String
  fileSize : Nat
  fileType : String
  content : String
  publicResumeHtml : Option String
deriving DecidableEq

/-- A row of the `candidates` table. -/
structure Candidate where
  id : String
  resumeId : String
  firstName : String
  lastName : String
  lastInitial : String
  email : String
  phone : Option String
  skills : List String
  experience : Option String
deriving DecidableEq

/-- A row of the `job_descriptions` table. -/
structure JobDescription where
  id : String
  contentHash : String
  title : String
  description : String
  requiredSkills : List String
deriving DecidableEq

/-- The `${m.resumeContentHash}:${m.jobContentHash}` key of the
pre-fetched match map in `routes/matching.ts`. -/
def matchKey (rh jh : String) : String := rh ++ ":" ++ jh

/-- `getMatchResultsByHashPairs(pairs)` from `db/index.ts`:
`WHERE (resume_content_hash, job_content_hash) IN (pairs)`. -/
def getMatchResultsByHashPairs (results : List MatchResultRow)
    (pairs : List (String × String)) : List MatchResultRow :=
  results.filter (fun m =>
    pairs.any (fun p => p.1 == m.resumeContentHash && p.2 == m.jobContentHash))

/-- `new Map(records.map(m => [key, m]))` lookup: the last entry for a
key wins. -/
def buildMatchMap (records : List MatchResultRow) (k : String) : Option MatchResultRow :=
  records.reverse.find? (fun m => matchKey m.resumeContentHash m.jobContentHash == k)

/-- `new Map(resumes.map(r => [r.id, r]))` lookup. -/
def buildResumeMap (resumes : List Resume) (k : String) : Option Resume :=
  resumes.reverse.find? (fun r => r.id == k)

/-- Per-candidate result classification of the `candidatePromises` closure
in `routes/matching.ts`. -/
inductive CandidateMatchOutcome where
  | existing (m : MatchResultRow)
  | newMatch (data : InsertMatchResult)
  | queued (candidateId jobId : String)
  | errorResult (candidateId jobId : String) (analysis : String)
deriving DecidableEq

/-- The body of one `candidatePromises` closure in `routes/matching.ts`:
resume looked up in the pre-fetched map (a miss throws, which the
closure's own catch turns into a queued or fabricated error result),
then the pre-fetched match map is consulted and an existing record is
returned without scoring; only on a map miss is `calculateMatchScore`
invoked — the returned flag records whether that call happened. -/
def processCandidateMatch (resumeMap : String → Option Resume)
    (matchMap : String → Option MatchResultRow) (jobDesc : JobDescription)
    (jobId : String) (candidate : Candidate) (rawLLM : Except JsError RawScore) :
    CandidateMatchOutcome × Bool :=
  match resumeMap candidate.resumeId with
  | none =>
    let thrown : JsError :=
      ⟨false, none, none, some ("Resume not found for candidate " ++ candidate.id),
       none, none⟩
    if isRateLimitError thrown then (.queued candidate.id jobId, false)
    else
      (.errorResult candidate.id jobId
        ("Failed to calculate match: " ++ ("Resume not found for candidate " ++ candidate.id)),
       false)
  | some resume =>
    match matchMap (matchKey resume.contentHash jobDesc.contentHash) with
    | some existingMatch => (.existing existingMatch, false)
    | none =>
      let matchData := calculateMatchScore rawLLM
      (.newMatch ⟨resume.contentHash, jobDesc.contentHash, jobId, candidate.id,
                  matchData.score, matchData.scorecard, matchData.matchingSkills,
                  some matchData.analysis⟩,
       true)

/-- The structured fields `extractCandidateInfo` resolves with. -/
structure CandidateInfo where
  firstName : String
  lastName : String
  lastInitial : String
  email : String
  phone : Option String
  skills : List String
  experience : Option String
deriving DecidableEq

/-- `insertResumeSchema` payload for `createResume`. -/
structure InsertResume where
  contentHash : String
  fileName : String
  fileSize : Nat
  fileType : String
  content : String
  publicResumeHtml : Option String
deriving DecidableEq

/-- The slice of the durable store touched by the resume-upload path:
resumes, candidates and the two per-resume retry queues, plus a counter
standing in for `gen_random_uuid()` id allocation. -/
structure UploadStore where
  resumes : List Resume
  candidates : List Candidate
  extractionQueue : List (QueueRow String)
  anonymizationQueue : List (QueueRow String)
  nextId : Nat
deriving DecidableEq

/-- Deterministic stand-in for `gen_random_uuid()`. -/
def freshIdStr (n : Nat) : String := "id-" ++ toString n

/-- `getResumeByHash(hash)` from `db/index.ts`:
`SELECT * FROM resumes WHERE content_hash = hash` (first row). -/
def getResumeByHash (st : UploadStore) (hash : String) : Option Resume :=
  st.resumes.find? (fun r => r.contentHash == hash)

/-- `getCandidateByResumeId(resumeId)` from `db/index.ts`. -/
def getCandidateByResumeId (st : UploadStore) (resumeId : String) : Option Candidate :=
  st.candidates.find? (fun c => c.resumeId == resumeId)

/-- `createResume(resume)` from `db/index.ts`, a plain insert.
Modelled from the spec: the current `resumes` table schema itself is not
under `src/` (only older revisions without the hash column are); the spec
states `ResumeRecord: id, contentHash (unique), ...`, so the insert
raises a unique violation when the content hash is already present. -/
def createResume (st : UploadStore) (ins : InsertResume) :
    Except DBError (Resume × UploadStore) :=
  if st.resumes.any (fun r => r.contentHash == ins.contentHash) then
    .error .uniqueViolation
  else
    let r : Resume :=
      ⟨freshIdStr st.nextId, ins.contentHash, ins.fileName, ins.fileSize,
       ins.fileType, ins.content, ins.publicResumeHtml⟩
    .ok (r, { st with resumes := st.resumes ++ [r], nextId := st.nextId + 1 })

/-- `createCandidate(candidate)` from `db/index.ts` (plain insert; the
`candidates` table has no unique constraint on `resumeId`). -/
def createCandidate (st : UploadStore) (resumeId : String) (info : CandidateInfo) :
    Candidate × UploadStore :=
  let c : Candidate :=
    ⟨freshIdStr st.nextId, resumeId, info.firstName, info.lastName, info.lastInitial,
     info.email, info.phone, info.skills, info.experience⟩
  (c, { st with candidates := st.candidates ++ [c], nextId := st.nextId + 1 })

/-- `updateResumeHtml(resumeId, html)` from `db/index.ts`. -/
def updateResumeHtml (st : UploadStore) (resumeId html : String) : UploadStore :=
  { st with resumes := st.resumes.map (fun r =>
      if r.id = resumeId then { r with publicResumeHtml := some html } else r) }

/-- `addToCandidateExtractionQueue(resumeId)` from `db/index.ts`. -/
def addToCandidateExtractionQueue (st : UploadStore) (resumeId : String) : UploadStore :=
  { st with extractionQueue := enqueue st.extractionQueue resumeId (freshIdStr st.nextId),
            nextId := st.nextId + 1 }

/-- `addToResumeAnonymizationQueue(resumeId)` from `db/index.ts`. -/
def addToResumeAnonymizationQueue (st : UploadStore) (resumeId : String) : UploadStore :=
  { st with anonymizationQueue := enqueue st.anonymizationQueue resumeId (freshIdStr st.nextId),
            nextId := st.nextId + 1 }

/-- The per-file result shape of the upload route. -/
structure ProcessResult where
  status : String
  resumeId : Option String
  candidateId : Option String
  error : Option String
deriving DecidableEq

/-- Anonymization stage of `processResumeFile` (`routes/candidates.ts`):
on success store the HTML; on a classified rate limit enqueue; any other
error is re-thrown (carrying the store as mutated so far). The status is
"completed" in every non-throwing case, exactly as the final status
computation in the source. -/
def afterExtraction (st : UploadStore) (resume : Resume) (candidateId : Option String)
    (anonOutcome : Except JsError String) :
    Except (JsError × UploadStore) (ProcessResult × UploadStore) :=
  match anonOutcome with
  | .ok html =>
    .ok ({ status := "completed", resumeId := some resume.id,
           candidateId := candidateId, error := none },
         updateResumeHtml st resume.id html)
  | .error e =>
    if isRateLimitError e then
      .ok ({ status := "completed", resumeId := some resume.id,
             candidateId := candidateId, error := none },
           addToResumeAnonymizationQueue st resume.id)
    else .error (e, st)

/-- The non-duplicate tail of `processResumeFile`: create the resume row,
then candidate extraction (success → create candidate; classified rate
limit → enqueue; otherwise re-throw), then anonymization. A failing
`createResume` insert surfaces as a thrown database error. -/
def processFreshUpload (st : UploadStore) (contentHash originalname mimetype : String)
    (fileSize : Nat) (content : String) (extractOutcome : Except JsError CandidateInfo)
    (anonOutcome : Except JsError String) :
    Except (JsError × UploadStore) (ProcessResult × UploadStore) :=
  match createResume st ⟨contentHash, originalname, fileSize, mimetype, content, none⟩ with
  | .error _ =>
    .error (⟨false, none, none,
             some "duplicate key value violates unique constraint", none, none⟩, st)
  | .ok (resume, st1) =>
    match extractOutcome with
    | .ok extractedInfo =>
      let created := createCandidate st1 resume.id extractedInfo
      afterExtraction created.2 resume (some created.1.id) anonOutcome
    | .error e =>
      if isRateLimitError e then
        afterExtraction (addToCandidateExtractionQueue st1 resume.id) resume none anonOutcome
      else .error (e, st1)

/-- `processResumeFile` from `routes/candidates.ts`: hash the bytes, and
if a resume with that hash exists AND a candidate record exists for it,
return the existing ids with status "skipped"; otherwise fall through to
the fresh-upload path. `content` is the text the external extraction
layer produced; the two inference outcomes are explicit. -/
def processResumeFile (hashFn : List Nat → String) (st : UploadStore)
    (buffer : List Nat) (originalname mimetype content : String)
    (extractOutcome : Except JsError CandidateInfo)
    (anonOutcome : Except JsError String) :
    Except (JsError × UploadStore) (ProcessResult × UploadStore) :=
  let contentHash := hashFn buffer
  match getResumeByHash st contentHash with
  | some existingResume =>
    match getCandidateByResumeId st existingResume.id with
    | some existingCandidate =>
      .ok ({ status := "skipped", resumeId := some existingResume.id,
             candidateId := some existingCandidate.id, error := none }, st)
    | none =>
      processFreshUpload st contentHash originalname mimetype buffer.length content
        extractOutcome anonOutcome
  | none =>
    processFreshUpload st contentHash originalname mimetype buffer.length content
      extractOutcome anonOutcome

/-- `processFileWithErrorHandling` from `routes/candidates.ts`: the catch
around `processResumeFile` that turns any thrown error into a "failed"
per-file result; store effects that happened before the throw persist. -/
def processFileWithErrorHandling (hashFn : List Nat → String) (st : UploadStore)
    (buffer : List Nat) (originalname mimetype content : String)
    (extractOutcome : Except JsError CandidateInfo)
    (anonOutcome : Except JsError String) : ProcessResult × UploadStore :=
  match processResumeFile hashFn st buffer originalname mimetype content
      extractOutcome anonOutcome with
  | .ok res => res
  | .error (e, st2) =>
    ({ status := "failed", resumeId := none, candidateId := none,
       error := some (e.message.getD "Unknown error") }, st2)

/-- Number of queue rows carrying a given owner key. -/
def keyCount {κ : Type} [DecidableEq κ] (rows : List (QueueRow κ)) (key : κ) : Nat :=
  rows.countP (fun row => decide (row.ownerKey = key))

/-- A classified rate-limit error (HTTP 429, no reset headers). -/
def rlErr429 : JsError := ⟨false, some 429, none, none, none, none⟩

/-- A non-rate-limit error (HTTP 500). -/
def hardErr500 : JsError := ⟨false, some 500, none, some "Internal server error", none, none⟩

/-- A rate-limit error carrying both duration-string reset headers. -/
def rlErrHeaders : JsError :=
  ⟨false, some 429, none, none,
   some [(rlRequestsKey, "1m30s"), (rlTokensKey, "20s")], none⟩

/-- Example insert payload for the match-completion theorems. -/
def exData : InsertMatchResult := ⟨"rh1", "jh1", "j1", "c1", 80, [], [], none⟩

/-- The row `exData` inserts under the fresh id "m1". -/
def exRow : MatchResultRow := ⟨"m1", "rh1", "jh1", "j1", "c1", 80, [], [], none⟩

/-- Example match-queue item. -/
def exQueueItem : QueueRow (String × String) := ⟨"q1", ("c1", "j1"), "pending", 0, none, none⟩

/-- Store before the worker completes `exQueueItem`. -/
def exStore0 : MatchStore := ⟨[], [exQueueItem]⟩

/-- Store after the worker completes `exQueueItem`. -/
def exStore1 : MatchStore := ⟨[exRow], []⟩

/-- Example resume row. -/
def exResume : Resume := ⟨"r1", "rh1", "cv.pdf", 3, "application/pdf", "text", none⟩

/-- Example candidate row owning `exResume`. -/
def exCandidate : Candidate := ⟨"c1", "r1", "Ada", "L", "L", "a@b.c", none, ["sql"], none⟩

/-- Example job description. -/
def exJob : JobDescription := ⟨"j1", "jh1", "Analyst", "desc", ["sql"]⟩

/-- Constant hash function for the concrete upload runs (only one byte
buffer is ever hashed in them). -/
def hashConst : List Nat → String := fun _ => "hash-1"

/-- Empty upload store. -/
def upStore0 : UploadStore := ⟨[], [], [], [], 0⟩

/-- Store after a first upload whose extraction call was rate limited:
the resume row exists, the extraction queue has a row, and no candidate
record exists. -/
def upStore1 : UploadStore :=
  (processFileWithErrorHandling hashConst upStore0 [1, 2, 3] "cv.pdf" "application/pdf"
    "resume text" (.error rlErr429) (.ok "<p>x</p>")).2

/-- The resume row created by the first upload into `upStore1`. -/
def upResume1 : Resume :=
  ⟨"id-0", "hash-1", "cv.pdf", 3, "application/pdf", "resume text", some "<p>x</p>"⟩

/-- The queue item's row after three consecutive failing worker cycles
(the worker's catch block applied three times). -/
def failItem3 (item0 : QueueRow (String × String)) (msg1 msg2 msg3 : String)
    (e1 e2 e3 : Option JsError) (now1 now2 now3 r1 r2 r3 : ℚ) :
    QueueRow (String × String) :=
  failItemUpdate (failItemUpdate (failItemUpdate item0 msg1 e1 now1 r1)
    msg2 e2 now2 r2) msg3 e3 now3 r3

/-- The match queue after three consecutive failing worker cycles on the
same item. -/
def workerFail3 (rows0 : List (QueueRow (String × String)))
    (item0 : QueueRow (String × String)) (msg1 msg2 msg3 : String)
    (e1 e2 e3 : Option JsError) (now1 now2 now3 r1 r2 r3 : ℚ) :
    List (QueueRow (String × String)) :=
  workerHandleMatchFailure
    (workerHandleMatchFailure
      (workerHandleMatchFailure rows0 item0 msg1 e1 now1 r1)
      (failItemUpdate item0 msg1 e1 now1 r1) msg2 e2 now2 r2)
    (failItemUpdate (failItemUpdate item0 msg1 e1 now1 r1) msg2 e2 now2 r2)
    msg3 e3 now3 r3

/-- Example fresh match-queue item for the retry-ceiling witness. -/
def wItem0 : QueueRow (String × String) := ⟨"w1", ("c1", "j1"), "pending", 0, none, none⟩

/-- A sleep happens only while attempts remain, so sleeps are bounded by
the remaining attempts; each loop iteration calls the action at most
once. -/
theorem retryLoop_sleeps_calls_le {T : Type} (fn : Nat → Except JsError T)
    (mr : Nat) : ∀ fuel attempt,
    (retryLoop fn mr attempt fuel).sleeps ≤ mr - attempt ∧
    (retryLoop fn mr attempt fuel).calls ≤ fuel := by
  intro fuel
  induction fuel with
  | zero => intro attempt; simp [retryLoop]
  | succ n ih =>
    intro attempt
    simp only [retryLoop]
    cases fn attempt with
    | ok v => simp
    | error e =>
      by_cases hrl : isRateLimitError e
      · by_cases hlt : attempt < mr
        · simp only [hrl, hlt, if_true]
          have h := ih (attempt + 1)
          constructor
          · have := h.1
            simp only [RetryResult.mk.injEq] at *
            omega
          · simpa using Nat.add_le_add_right h.2 1
        · simp [hrl, hlt]
      · simp [hrl]

/-- All invocations of the action before the last one ended in classified
rate-limit errors: the loop retries only on those. -/
theorem retryLoop_earlier_rate_limited {T : Type} (fn : Nat → Except JsError T)
    (mr : Nat) : ∀ fuel attempt i, i + 1 < (retryLoop fn mr attempt fuel).calls →
    ∃ e, fn (attempt + i) = .error e ∧ isRateLimitError e = true := by
  intro fuel
  induction fuel with
  | zero => intro attempt i h; simp [retryLoop] at h
  | succ n ih =>
    intro attempt i h
    simp only [retryLoop] at h
    cases hfn : fn attempt with
    | ok v => rw [hfn] at h; simp at h
    | error e =>
      rw [hfn] at h
      by_cases hrl : isRateLimitError e
      · by_cases hlt : attempt < mr
        · simp only [hrl, hlt, if_true] at h
          cases i with
          | zero => exact ⟨e, by simpa using hfn, hrl⟩
          | succ j =>
            have := ih (attempt + 1) j (by omega)
            simpa [Nat.add_assoc, Nat.add_comm 1 j] using this
        · simp [hrl, hlt] at h
      · simp [hrl] at h

/-- When every remaining attempt is a classified rate-limit error, the
loop sleeps through its budget and ends in the exhaustion throw. -/
theorem retryLoop_exhausts {T : Type} (fn : Nat → Except JsError T) (mr : Nat) :
    ∀ fuel attempt, attempt + fuel = mr + 1 → attempt ≤ mr →
    (∀ i, attempt ≤ i → i ≤ mr → ∃ e, fn i = .error e ∧ isRateLimitError e = true) →
    retryLoop fn mr attempt fuel = ⟨.rateLimitExhausted, fuel - 1, fuel⟩ := by
  intro fuel
  induction fuel with
  | zero => intro attempt hsum hle _; omega
  | succ n ih =>
    intro attempt hsum hle hall
    obtain ⟨e, he, hrl⟩ := hall attempt le_rfl hle
    by_cases hlt : attempt < mr
    · have hn : n ≠ 0 := by omega
      have hrest := ih (attempt + 1) (by omega) (by omega)
        (fun i h1 h2 => hall i (by omega) h2)
      simp only [retryLoop, he, hrl, hlt, if_true, hrest]
      refine congrArg (fun s => RetryResult.mk RetryOutcome.rateLimitExhausted s (n + 1)) ?_
      omega
    · have hn : n = 0 := by omega
      subst hn
      simp [retryLoop, he, hrl, hlt]

/-- C8: `retryWithBackoff(action, maxAttempts=3)` retries only on errors
classified as rate limits and only while attempts remain (every call
before the last one ended in a classified rate-limit error; at most 3
sleeps and 4 invocations happen), raises the distinguished
`RateLimitError` exhaustion throw when classified rate-limit errors
persist after the retries are used up (after exactly 3 sleeps), and
propagates any non-rate-limit error immediately, with no retry and no
sleep. -/
theorem retryWithBackoff_spec {T : Type} (fn : Nat → Except JsError T) :
    ((retryWithBackoff fn 3).sleeps ≤ 3 ∧ (retryWithBackoff fn 3).calls ≤ 4) ∧
    (∀ i, i + 1 < (retryWithBackoff fn 3).calls →
      ∃ e, fn i = .error e ∧ isRateLimitError e = true) ∧
    ((∀ i, i ≤ 3 → ∃ e, fn i = .error e ∧ isRateLimitError e = true) →
      retryWithBackoff fn 3 = ⟨.rateLimitExhausted, 3, 4⟩) ∧
    (∀ e, fn 0 = .error e → isRateLimitError e = false →
      retryWithBackoff fn 3 = ⟨.hard e, 0, 1⟩) := by
  refine ⟨⟨?_, ?_⟩, ?_, ?_, ?_⟩
  · simpa using (retryLoop_sleeps_calls_le fn 3 4 0).1
  · exact (retryLoop_sleeps_calls_le fn 3 4 0).2
  · intro i hi
    simpa using retryLoop_earlier_rate_limited fn 3 4 0 i hi
  · intro hall
    exact retryLoop_exhausts fn 3 4 0 rfl (by omega) (fun i _ h2 => hall i h2)
  · intro e he hrl
    simp [retryWithBackoff, retryLoop, he, hrl]

/-- Witness for `retryWithBackoff_spec`: an action that is rate limited
on every attempt exhausts after exactly 3 sleeps and 4 calls. -/
theorem retryWithBackoff_spec_witness :
    retryWithBackoff (fun _ => (.error rlErr429 : Except JsError Nat)) 3 =
      ⟨.rateLimitExhausted, 3, 4⟩ :=
  (retryWithBackoff_spec (fun _ => .error rlErr429)).2.2.1
    (fun _ _ => ⟨rlErr429, rfl, by decide⟩)

/-- C9: with no machine-readable reset hint, `calculateNextRetry` lands
between 54 and 66 seconds after now (60s window with ±10% jitter); with
duration-string reset hints present, it lands within ±1 second of now
plus the larger of the request-rate and token-rate windows. -/
theorem calculateNextRetry_backoff_bounds (a : Nat) (error : Option JsError)
    (now r : ℚ) (hr0 : 0 ≤ r) (hr1 : r < 1) :
    ((∀ e, error = some e → parseRateLimitReset e now = none) →
      now + 54000 ≤ calculateNextRetry a error now r ∧
      calculateNextRetry a error now r ≤ now + 66000) ∧
    (∀ e h, error = some e → headersOf e = some h →
      0 < Nat.max (parseDuration (headerLookup h rlRequestsKey))
                  (parseDuration (headerLookup h rlTokensKey)) →
      |calculateNextRetry a error now r -
        (now + (Nat.max (parseDuration (headerLookup h rlRequestsKey))
                        (parseDuration (headerLookup h rlTokensKey)) : ℚ))| ≤ 1000) := by
  constructor
  · intro hnone
    have hfb : calculateNextRetry a error now r = fallbackNextRetry now r := by
      cases error with
      | none => rfl
      | some e => simp [calculateNextRetry, hnone e rfl]
    rw [hfb]
    simp only [fallbackNextRetry]
    constructor <;> nlinarith
  · intro e h he hh hpos
    subst he
    have hp : parseRateLimitReset e now =
        some (now + (Nat.max (parseDuration (headerLookup h rlRequestsKey))
                             (parseDuration (headerLookup h rlTokensKey)) : ℚ)) := by
      simp only [parseRateLimitReset, hh, hpos, if_true]
    simp only [calculateNextRetry, hp]
    rw [abs_le]
    constructor <;> nlinarith

/-- Witness for `calculateNextRetry_backoff_bounds`: with headers
"1m30s" and "20s" the retry time lands within one second of now plus the
90-second request window. -/
theorem calculateNextRetry_backoff_bounds_witness :
    |calculateNextRetry 1 (some rlErrHeaders) 0 (1 / 2) -
      (0 + (Nat.max (parseDuration (headerLookup [(rlRequestsKey, "1m30s"), (rlTokensKey, "20s")] rlRequestsKey))
                    (parseDuration (headerLookup [(rlRequestsKey, "1m30s"), (rlTokensKey, "20s")] rlTokensKey)) : ℚ))| ≤ 1000 :=
  (calculateNextRetry_backoff_bounds 1 (some rlErrHeaders) 0 (1 / 2)
      (by norm_num) (by norm_num)).2
    rlErrHeaders [(rlRequestsKey, "1m30s"), (rlTokensKey, "20s")] rfl (by decide) (by decide)

/-- C10: `calculateNextRetry` ignores its attempt-count argument: for the
same error, clock and randomness, any two attempt numbers give identical
results — the queue retry delay does not grow with the attempt number. -/
theorem calculateNextRetry_attempt_independent (a b : Nat)
    (error : Option JsError) (now r : ℚ) :
    calculateNextRetry a error now r = calculateNextRetry b error now r := by
  cases error <;> rfl

/-- Upserting leaves exactly one row per owner key when the unique
constraint held before. -/
theorem enqueue_keyCount_one {κ : Type} [DecidableEq κ]
    (rows : List (QueueRow κ)) (key : κ) (fid : String)
    (hu : keyCount rows key ≤ 1) : keyCount (enqueue rows key fid) key = 1 := by
  by_cases hany : rows.any (fun row => decide (row.ownerKey = key)) = true
  · have hpos : 0 < keyCount rows key := by
      obtain ⟨row, hmem, hp⟩ := List.any_eq_true.mp hany
      exact List.countP_pos_iff.mpr ⟨row, hmem, hp⟩
    have heq : keyCount (rows.map (fun row =>
        if row.ownerKey = key then
          { row with status := "pending", attemptCount := 0,
                     nextRetryAt := none, lastError := none }
        else row)) key = keyCount rows key := by
      unfold keyCount
      rw [List.countP_map]
      refine List.countP_congr (fun row _ => ?_)
      by_cases hk : row.ownerKey = key <;> simp [hk, Function.comp]
    rw [enqueue, if_pos hany, heq]
    omega
  · have hzero : keyCount rows key = 0 := by
      unfold keyCount
      rw [List.countP_eq_zero]
      intro row hmem
      exact fun hp => hany (List.any_eq_true.mpr ⟨row, hmem, hp⟩)
    rw [enqueue, if_neg hany]
    unfold keyCount at hzero ⊢
    rw [List.countP_append, hzero]
    simp

/-- Every row carrying the key after an upsert is fully reset to the
pending defaults. -/
theorem enqueue_reset_fields {κ : Type} [DecidableEq κ]
    (rows : List (QueueRow κ)) (key : κ) (fid : String) :
    ∀ row ∈ enqueue rows key fid, row.ownerKey = key →
      row.status = "pending" ∧ row.attemptCount = 0 ∧
      row.nextRetryAt = none ∧ row.lastError = none := by
  intro row hmem hk
  rw [enqueue] at hmem
  by_cases hany : rows.any (fun r => decide (r.ownerKey = key)) = true
  · rw [if_pos hany] at hmem
    obtain ⟨row0, _, heq⟩ := List.mem_map.mp hmem
    by_cases hk0 : row0.ownerKey = key
    · rw [if_pos hk0] at heq
      subst heq
      exact ⟨rfl, rfl, rfl, rfl⟩
    · rw [if_neg hk0] at heq
      subst heq
      exact absurd hk hk0
  · rw [if_neg hany] at hmem
    rcases List.mem_append.mp hmem with hin | hin
    · exact absurd (List.any_eq_true.mpr ⟨row, hin, by simpa using hk⟩) hany
    · have : row = ⟨fid, key, "pending", 0, none, none⟩ := List.mem_singleton.mp hin
      subst this
      exact ⟨rfl, rfl, rfl, rfl⟩

/-- C4: enqueuing the same (kind, ownerKey) twice leaves exactly one
queue row for that key, and after the second enqueue that row has
attemptCount 0, status pending, and cleared nextRetryAt and lastError —
so it satisfies the eligibility predicate at every time (a previously
dormant row becomes eligible again). -/
theorem enqueue_single_pending_reset {κ : Type} [DecidableEq κ]
    (rows : List (QueueRow κ)) (key : κ) (id1 id2 : String)
    (hu : keyCount rows key ≤ 1) :
    keyCount (enqueue (enqueue rows key id1) key id2) key = 1 ∧
    (∀ row ∈ enqueue (enqueue rows key id1) key id2, row.ownerKey = key →
      row.status = "pending" ∧ row.attemptCount = 0 ∧
      row.nextRetryAt = none ∧ row.lastError = none ∧
      ∀ now : ℚ, isEligible row now = true) := by
  have h1 : keyCount (enqueue rows key id1) key = 1 := enqueue_keyCount_one rows key id1 hu
  refine ⟨enqueue_keyCount_one _ key id2 (by omega), ?_⟩
  intro row hmem hk
  obtain ⟨hs, ha, hn, hl⟩ := enqueue_reset_fields (enqueue rows key id1) key id2 row hmem hk
  exact ⟨hs, ha, hn, hl, fun now => by simp [isEligible, hs, hn]⟩

/-- Witness for `enqueue_single_pending_reset`: a single dormant row is
reset by re-enqueueing, leaving one pending row. -/
theorem enqueue_single_pending_reset_witness :
    keyCount (enqueue (enqueue
      [(⟨"q9", "r1", "pending", 3, some 999999, some "err"⟩ : QueueRow String)]
      "r1" "f1") "r1" "f2") "r1" = 1 :=
  (enqueue_single_pending_reset
    [(⟨"q9", "r1", "pending", 3, some 999999, some "err"⟩ : QueueRow String)]
    "r1" "f1" "f2" (by decide)).1

/-- `failItemUpdate` keeps the row id. -/
theorem failItemUpdate_id (item : QueueRow (String × String)) (msg : String)
    (err : Option JsError) (now r : ℚ) :
    (failItemUpdate item msg err now r).id = item.id := by
  by_cases hc : MAX_RETRIES ≤ item.attemptCount + 1 <;> simp [failItemUpdate, hc]

/-- `failItemUpdate` keeps the status field (the worker never writes it). -/
theorem failItemUpdate_status (item : QueueRow (String × String)) (msg : String)
    (err : Option JsError) (now r : ℚ) :
    (failItemUpdate item msg err now r).status = item.status := by
  by_cases hc : MAX_RETRIES ≤ item.attemptCount + 1 <;> simp [failItemUpdate, hc]

/-- `failItemUpdate` increments the attempt count by one. -/
theorem failItemUpdate_attemptCount (item : QueueRow (String × String)) (msg : String)
    (err : Option JsError) (now r : ℚ) :
    (failItemUpdate item msg err now r).attemptCount = item.attemptCount + 1 := by
  by_cases hc : MAX_RETRIES ≤ item.attemptCount + 1 <;> simp [failItemUpdate, hc]

/-- `incrementMatchRetry` updates exactly the targeted row (under the
primary-key uniqueness of ids), keeps it in the table, and preserves the
row count. -/
theorem incrementMatchRetry_spec (rows : List (QueueRow (String × String)))
    (item : QueueRow (String × String)) (m : String) (v : ℚ)
    (hmem : item ∈ rows)
    (hu : ∀ row ∈ rows, row.id = item.id → row = item) :
    ({ item with attemptCount := item.attemptCount + 1, lastError := some m,
                 nextRetryAt := some v } ∈ incrementMatchRetry rows item.id m v) ∧
    (∀ row ∈ incrementMatchRetry rows item.id m v, row.id = item.id →
      row = { item with attemptCount := item.attemptCount + 1, lastError := some m,
                        nextRetryAt := some v }) ∧
    (incrementMatchRetry rows item.id m v).length = rows.length := by
  refine ⟨?_, ?_, by simp [incrementMatchRetry]⟩
  · refine List.mem_map.mpr ⟨item, hmem, ?_⟩
    simp
  · intro row hrow hid
    obtain ⟨row0, hr0mem, heq⟩ := List.mem_map.mp hrow
    by_cases h0 : row0.id = item.id
    · have h0eq := hu row0 hr0mem h0
      subst h0eq
      simp only [if_pos rfl] at heq
      exact heq.symm
    · simp only [if_neg h0] at heq
      subst heq
      exact absurd hid h0

/-- The worker's failure branch acts on the store as `failItemUpdate`
acts on the fetched row: the updated row is present, unique for its id,
and no row is deleted. -/
theorem workerHandleMatchFailure_spec (rows : List (QueueRow (String × String)))
    (item : QueueRow (String × String)) (msg : String) (err : Option JsError)
    (now r : ℚ) (hmem : item ∈ rows)
    (hu : ∀ row ∈ rows, row.id = item.id → row = item) :
    (failItemUpdate item msg err now r ∈ workerHandleMatchFailure rows item msg err now r) ∧
    (∀ row ∈ workerHandleMatchFailure rows item msg err now r, row.id = item.id →
      row = failItemUpdate item msg err now r) ∧
    (workerHandleMatchFailure rows item msg err now r).length = rows.length := by
  unfold workerHandleMatchFailure failItemUpdate
  by_cases hc : MAX_RETRIES ≤ item.attemptCount + 1
  · simp only [hc, if_true]
    exact incrementMatchRetry_spec rows item msg _ hmem hu
  · simp only [hc, if_false]
    exact incrementMatchRetry_spec rows item msg _ hmem hu

/-- C5: a match-queue item that fails on 3 consecutive worker cycles
(fetched as eligible each time, starting fresh) ends with attemptCount 3
and nextRetryAt exactly one year after the third cycle — more than 300
days in the future — is retained in the queue (row present, no row
deleted), and is excluded from the eligible set returned by
`getRetryableMatchJobs` at any time before that far-future instant. -/
theorem matchQueue_retry_ceiling
    (rows0 : List (QueueRow (String × String))) (item0 : QueueRow (String × String))
    (msg1 msg2 msg3 : String) (e1 e2 e3 : Option JsError)
    (now1 now2 now3 r1 r2 r3 : ℚ)
    (hmem : item0 ∈ rows0)
    (hu : ∀ row ∈ rows0, row.id = item0.id → row = item0)
    (hac : item0.attemptCount = 0)
    (helig1 : isEligible item0 now1 = true)
    (helig2 : isEligible (failItemUpdate item0 msg1 e1 now1 r1) now2 = true)
    (helig3 : isEligible (failItemUpdate (failItemUpdate item0 msg1 e1 now1 r1)
      msg2 e2 now2 r2) now3 = true) :
    (failItem3 item0 msg1 msg2 msg3 e1 e2 e3 now1 now2 now3 r1 r2 r3).attemptCount = 3 ∧
    (failItem3 item0 msg1 msg2 msg3 e1 e2 e3 now1 now2 now3 r1 r2 r3).nextRetryAt =
      some (now3 + msPerYear) ∧
    (∀ x, (failItem3 item0 msg1 msg2 msg3 e1 e2 e3 now1 now2 now3 r1 r2 r3).nextRetryAt =
      some x → now3 + ms300Days < x) ∧
    (failItem3 item0 msg1 msg2 msg3 e1 e2 e3 now1 now2 now3 r1 r2 r3 ∈
      workerFail3 rows0 item0 msg1 msg2 msg3 e1 e2 e3 now1 now2 now3 r1 r2 r3) ∧
    (workerFail3 rows0 item0 msg1 msg2 msg3 e1 e2 e3 now1 now2 now3 r1 r2 r3).length =
      rows0.length ∧
    (∀ t : ℚ, t < now3 + msPerYear →
      failItem3 item0 msg1 msg2 msg3 e1 e2 e3 now1 now2 now3 r1 r2 r3 ∉
        getRetryableMatchJobs
          (workerFail3 rows0 item0 msg1 msg2 msg3 e1 e2 e3 now1 now2 now3 r1 r2 r3) t) := by
  have hid1 := failItemUpdate_id item0 msg1 e1 now1 r1
  have s1 := workerHandleMatchFailure_spec rows0 item0 msg1 e1 now1 r1 hmem hu
  have hu1 : ∀ row ∈ workerHandleMatchFailure rows0 item0 msg1 e1 now1 r1,
      row.id = (failItemUpdate item0 msg1 e1 now1 r1).id →
      row = failItemUpdate item0 msg1 e1 now1 r1 := by
    intro row hrow hid
    exact s1.2.1 row hrow (by rw [← hid1]; exact hid)
  have s2 := workerHandleMatchFailure_spec _ (failItemUpdate item0 msg1 e1 now1 r1)
    msg2 e2 now2 r2 s1.1 hu1
  have hid2 := failItemUpdate_id (failItemUpdate item0 msg1 e1 now1 r1) msg2 e2 now2 r2
  have hu2 : ∀ row ∈ workerHandleMatchFailure
      (workerHandleMatchFailure rows0 item0 msg1 e1 now1 r1)
      (failItemUpdate item0 msg1 e1 now1 r1) msg2 e2 now2 r2,
      row.id = (failItemUpdate (failItemUpdate item0 msg1 e1 now1 r1) msg2 e2 now2 r2).id →
      row = failItemUpdate (failItemUpdate item0 msg1 e1 now1 r1) msg2 e2 now2 r2 := by
    intro row hrow hid
    exact s2.2.1 row hrow (by rw [← hid2]; exact hid)
  have s3 := workerHandleMatchFailure_spec _
    (failItemUpdate (failItemUpdate item0 msg1 e1 now1 r1) msg2 e2 now2 r2)
    msg3 e3 now3 r3 s2.1 hu2
  have hac1 : (failItemUpdate item0 msg1 e1 now1 r1).attemptCount = 1 := by
    rw [failItemUpdate_attemptCount, hac]
  have hac2 : (failItemUpdate (failItemUpdate item0 msg1 e1 now1 r1)
      msg2 e2 now2 r2).attemptCount = 2 := by
    rw [failItemUpdate_attemptCount, hac1]
  have hac3 : (failItem3 item0 msg1 msg2 msg3 e1 e2 e3 now1 now2 now3 r1 r2 r3).attemptCount = 3 := by
    unfold failItem3
    rw [failItemUpdate_attemptCount, hac2]
  have hceil : MAX_RETRIES ≤ (failItemUpdate (failItemUpdate item0 msg1 e1 now1 r1)
      msg2 e2 now2 r2).attemptCount + 1 := by
    rw [hac2]; decide
  have hnra : (failItem3 item0 msg1 msg2 msg3 e1 e2 e3 now1 now2 now3 r1 r2 r3).nextRetryAt =
      some (now3 + msPerYear) := by
    unfold failItem3
    generalize failItemUpdate (failItemUpdate item0 msg1 e1 now1 r1) msg2 e2 now2 r2 = item2 at hceil ⊢
    simp [failItemUpdate, hceil]
  refine ⟨hac3, hnra, ?_, ?_, ?_, ?_⟩
  · intro x hx
    rw [hnra] at hx
    have hxx := Option.some.inj hx
    subst hxx
    unfold ms300Days msPerYear
    norm_num
  · exact s3.1
  · rw [workerFail3]
    rw [s3.2.2, s2.2.2, s1.2.2]
  · intro t ht hcontra
    simp only [getRetryableMatchJobs, getRetryableJobs, List.mem_filter] at hcontra
    have hfalse : isEligible (failItem3 item0 msg1 msg2 msg3 e1 e2 e3 now1 now2 now3 r1 r2 r3) t = false := by
      have hnle : ¬(now3 + msPerYear ≤ t) := not_le.mpr ht
      simp [isEligible, hnra, hnle]
    rw [hcontra.2] at hfalse
    simp at hfalse

/-- Witness for `matchQueue_retry_ceiling`: a fresh item failing at times
0, 100000 and 200000 ms (rate-limit errors without reset headers, median
jitter draws) ends with attemptCount 3. -/
theorem matchQueue_retry_ceiling_witness :
    (failItem3 wItem0 "m" "m" "m" (some rlErr429) (some rlErr429) (some rlErr429)
      0 100000 200000 (1 / 2) (1 / 2) (1 / 2)).attemptCount = 3 :=
  (matchQueue_retry_ceiling [wItem0] wItem0 "m" "m" "m"
    (some rlErr429) (some rlErr429) (some rlErr429) 0 100000 200000 (1 / 2) (1 / 2) (1 / 2)
    (by decide) (by decide) (by decide) (by decide)
    (by norm_num [isEligible, failItemUpdate, wItem0, MAX_RETRIES, calculateNextRetry,
      parseRateLimitReset, headersOf, rlErr429, fallbackNextRetry, msPerYear])
    (by norm_num [isEligible, failItemUpdate, wItem0, MAX_RETRIES, calculateNextRetry,
      parseRateLimitReset, headersOf, rlErr429, fallbackNextRetry, msPerYear])).1

/-- When no row carries the pair, the pair count is zero. -/
theorem pairConflict_false_countPair (results : List MatchResultRow)
    (data : InsertMatchResult) (h : pairConflict results data = false) :
    countPair results data.resumeContentHash data.jobContentHash = 0 := by
  simp only [countPair, List.length_eq_zero]
  rw [List.filter_eq_nil_iff]
  intro a ha
  have := List.any_eq_false.mp h a ha
  simpa using this

/-- Appending one row adds its pair match to the count. -/
theorem countPair_append_single (l : List MatchResultRow) (row : MatchResultRow)
    (rh jh : String) :
    countPair (l ++ [row]) rh jh = countPair l rh jh +
      (if row.resumeContentHash == rh && row.jobContentHash == jh then 1 else 0) := by
  simp only [countPair, List.filter_append, List.length_append]
  congr 1
  by_cases hc : row.resumeContentHash == rh && row.jobContentHash == jh <;>
    simp [List.filter, hc]

/-- A successful `createMatchAndCompleteJob` presupposes the pair was
absent, and commits exactly the two effects: the inserted row appended to
the results and the queue row deleted. -/
theorem createMatchAndCompleteJob_ok_shape (s : MatchStore) (data : InsertMatchResult)
    (qid fid : String) (row : MatchResultRow) (s2 : MatchStore)
    (hok : createMatchAndCompleteJob s data qid fid = .ok (row, s2)) :
    pairConflict s.results data = false ∧
    row = ⟨fid, data.resumeContentHash, data.jobContentHash, data.jobDescriptionId,
           data.candidateId, data.matchScore, data.scorecard, data.matchingSkills,
           data.analysis⟩ ∧
    s2.results = s.results ++ [row] ∧
    s2.queue = s.queue.filter (fun q => !(q.id == qid)) := by
  cases hconf : pairConflict s.results data with
  | true =>
    simp only [createMatchAndCompleteJob, insertMatchResultRow, hconf, if_true] at hok
    exact Except.noConfusion hok
  | false =>
    simp only [createMatchAndCompleteJob, insertMatchResultRow, hconf,
      Bool.false_eq_true, if_false, Except.ok.injEq, Prod.mk.injEq] at hok
    obtain ⟨hrow, hs2⟩ := hok
    subst hs2
    exact ⟨rfl, hrow.symm, by rw [hrow], rfl⟩

/-- One replay step keeps the pair count at most one. -/
theorem replayStep_countPair_le (data : InsertMatchResult) (qid : String)
    (t u : MatchStore) (hstep : MatchReplayStep data qid t u)
    (ht : countPair t.results data.resumeContentHash data.jobContentHash ≤ 1) :
    countPair u.results data.resumeContentHash data.jobContentHash ≤ 1 := by
  cases hstep with
  | crash => exact ht
  | complete s2 row fid hq hok =>
    obtain ⟨hconf, hrow, hres, _⟩ := createMatchAndCompleteJob_ok_shape _ _ _ _ _ _ hok
    have h0 := pairConflict_false_countPair _ _ hconf
    rw [hres, countPair_append_single, h0]
    subst hrow
    simp

/-- C1: `createMatchAndCompleteJob` is atomic — every replay step either
leaves the store unchanged (a crash anywhere rolls the transaction back)
or commits both effects together (result row appended and queue row
deleted) — so for any crash-and-reprocess sequence on the same queue item
starting from a store without the pair, at most one MatchResultRecord
ever exists for that (resumeContentHash, jobContentHash) pair. -/
theorem createMatchAndCompleteJob_atomic (data : InsertMatchResult) (qid : String)
    (s0 s : MatchStore)
    (h0 : countPair s0.results data.resumeContentHash data.jobContentHash = 0)
    (hsteps : Relation.ReflTransGen (MatchReplayStep data qid) s0 s) :
    countPair s.results data.resumeContentHash data.jobContentHash ≤ 1 ∧
    (∀ t u, MatchReplayStep data qid t u → u = t ∨
      ∃ row fid, createMatchAndCompleteJob t data qid fid = .ok (row, u) ∧
        u.results = t.results ++ [row] ∧
        u.queue = t.queue.filter (fun q => !(q.id == qid))) := by
  constructor
  · induction hsteps with
    | refl => omega
    | tail _ hstep ih => exact replayStep_countPair_le data qid _ _ hstep ih
  · intro t u hstep
    cases hstep with
    | crash => exact Or.inl rfl
    | complete s2 row fid hq hok =>
      obtain ⟨_, _, hres, hqueue⟩ := createMatchAndCompleteJob_ok_shape _ _ _ _ _ _ hok
      exact Or.inr ⟨row, fid, hok, hres, hqueue⟩

/-- Witness for `createMatchAndCompleteJob_atomic`: a crash followed by a
successful reprocessing of the same queue item leaves one result row. -/
theorem createMatchAndCompleteJob_atomic_witness :
    countPair exStore1.results exData.resumeContentHash exData.jobContentHash ≤ 1 :=
  (createMatchAndCompleteJob_atomic exData "q1" exStore0 exStore1 (by decide)
    (Relation.ReflTransGen.tail
      (Relation.ReflTransGen.tail Relation.ReflTransGen.refl
        (MatchReplayStep.crash exStore0))
      (MatchReplayStep.complete exStore0 exStore1 exRow "m1"
        ⟨exQueueItem, by decide, rfl⟩ (by rfl)))).1

/-- Counterexample to C2 as stated: with the pair already present, the
combined operation does not complete silently — it surfaces the
unique-constraint violation. -/
theorem createMatchAndCompleteJob_conflict_counterexample :
    createMatchAndCompleteJob ⟨[exRow], [exQueueItem]⟩ exData "q1" "m2" =
      .error .uniqueViolation := by
  rfl

/-- C2 (amended): when the (resumeContentHash, jobContentHash) pair
already exists, `createMatchAndCompleteJob` raises the unique-constraint
violation (its insert carries no conflict-ignoring clause), aborting the
transaction instead of completing silently. -/
theorem createMatchAndCompleteJob_duplicate_raises (s : MatchStore)
    (data : InsertMatchResult) (qid fid : String)
    (hdup : pairConflict s.results data = true) :
    createMatchAndCompleteJob s data qid fid = .error .uniqueViolation := by
  simp only [createMatchAndCompleteJob, insertMatchResultRow, hdup, if_true]

/-- Witness for `createMatchAndCompleteJob_duplicate_raises`. -/
theorem createMatchAndCompleteJob_duplicate_raises_witness :
    createMatchAndCompleteJob ⟨[exRow], [exQueueItem]⟩ exData "q2" "m3" =
      .error .uniqueViolation :=
  createMatchAndCompleteJob_duplicate_raises ⟨[exRow], [exQueueItem]⟩ exData "q2" "m3"
    (by decide)

/-- C7: when the (resume hash, job hash) pair of a candidate–job request
is among the fetched records — protected by the pair unique constraint —
the per-candidate match closure returns that existing MatchResultRecord
and does not invoke the scoring inference call. -/
theorem match_dedup_returns_existing (storeResults : List MatchResultRow)
    (pairs : List (String × String)) (resumeRows : List Resume)
    (jobDesc : JobDescription) (jobId : String) (candidate : Candidate)
    (resume : Resume) (m : MatchResultRow) (rawLLM : Except JsError RawScore)
    (hres : buildResumeMap resumeRows candidate.resumeId = some resume)
    (hm : m ∈ storeResults)
    (hmr : m.resumeContentHash = resume.contentHash)
    (hmj : m.jobContentHash = jobDesc.contentHash)
    (hpair : (resume.contentHash, jobDesc.contentHash) ∈ pairs)
    (huniq : ∀ m2 ∈ storeResults,
      matchKey m2.resumeContentHash m2.jobContentHash =
        matchKey m.resumeContentHash m.jobContentHash → m2 = m) :
    processCandidateMatch (buildResumeMap resumeRows)
      (buildMatchMap (getMatchResultsByHashPairs storeResults pairs))
      jobDesc jobId candidate rawLLM = (.existing m, false) := by
  have hmem2 : m ∈ getMatchResultsByHashPairs storeResults pairs := by
    refine List.mem_filter.mpr ⟨hm, ?_⟩
    exact List.any_eq_true.mpr
      ⟨(resume.contentHash, jobDesc.contentHash), hpair, by simp [hmr, hmj]⟩
  have hkeym : matchKey m.resumeContentHash m.jobContentHash =
      matchKey resume.contentHash jobDesc.contentHash := by rw [hmr, hmj]
  have hexists : ∃ x ∈ (getMatchResultsByHashPairs storeResults pairs).reverse,
      (matchKey x.resumeContentHash x.jobContentHash ==
        matchKey resume.contentHash jobDesc.contentHash) = true := by
    exact ⟨m, List.mem_reverse.mpr hmem2, by simp [hkeym]⟩
  have hsome : ((getMatchResultsByHashPairs storeResults pairs).reverse.find?
      (fun x => matchKey x.resumeContentHash x.jobContentHash ==
        matchKey resume.contentHash jobDesc.contentHash)).isSome := by
    rw [List.find?_isSome]
    exact hexists
  obtain ⟨y, hy⟩ := Option.isSome_iff_exists.mp hsome
  have hykey : matchKey y.resumeContentHash y.jobContentHash =
      matchKey resume.contentHash jobDesc.contentHash := by
    have := List.find?_some hy
    simpa using this
  have hymem : y ∈ storeResults :=
    List.mem_of_mem_filter (List.mem_reverse.mp (List.mem_of_find?_eq_some hy))
  have hym : y = m := huniq y hymem (by rw [hykey, hkeym])
  have hmapm : buildMatchMap (getMatchResultsByHashPairs storeResults pairs)
      (matchKey resume.contentHash jobDesc.contentHash) = some m := by
    rw [buildMatchMap, hy, hym]
  simp only [processCandidateMatch, hres, hmapm]

/-- Witness for `match_dedup_returns_existing`: a one-record store and a
one-pair request return the cached record without scoring. -/
theorem match_dedup_returns_existing_witness :
    processCandidateMatch (buildResumeMap [exResume])
      (buildMatchMap (getMatchResultsByHashPairs [exRow] [("rh1", "jh1")]))
      exJob "j1" exCandidate (.error rlErr429) = (.existing exRow, false) :=
  match_dedup_returns_existing [exRow] [("rh1", "jh1")] [exResume] exJob "j1"
    exCandidate exResume exRow (.error rlErr429)
    (by decide) (by decide) (by decide) (by decide) (by decide) (by decide)

/-- C6 (evaluation at the failing input): a scoring inference call that
rejects with a non-rate-limit error is not propagated —
`calculateMatchScore` fabricates the placeholder result (score 0, empty
scorecard, stub analysis), and the per-candidate closure hands exactly
those fabricated field values on for insertion as a new
MatchResultRecord. -/
theorem calculateMatchScore_fabricates_placeholder :
    isRateLimitError hardErr500 = false ∧
    calculateMatchScore (.error hardErr500) =
      ⟨0, [], [], "Failed to calculate match score due to AI service error"⟩ ∧
    processCandidateMatch (buildResumeMap [exResume]) (buildMatchMap []) exJob "j1"
      exCandidate (.error hardErr500) =
      (.newMatch ⟨"rh1", "jh1", "j1", "c1", 0, [], [],
        some "Failed to calculate match score due to AI service error"⟩, true) := by
  refine ⟨by decide, rfl, by rfl⟩

/-- Counterexample to C3 as stated: after a first upload whose extraction
call was rate limited (response "completed", extraction queued, no
candidate record), resubmitting the identical bytes does not return the
existing ResumeRecord with status "skipped" — the upload falls through
the dedup gate and fails. -/
theorem resume_resubmission_counterexample :
    (processFileWithErrorHandling hashConst upStore0 [1, 2, 3] "cv.pdf" "application/pdf"
      "resume text" (.error rlErr429) (.ok "<p>x</p>")).1.status = "completed" ∧
    (processFileWithErrorHandling hashConst upStore1 [1, 2, 3] "cv.pdf" "application/pdf"
      "resume text" (.error rlErr429) (.ok "<p>x</p>")).1.status = "failed" ∧
    (processFileWithErrorHandling hashConst upStore1 [1, 2, 3] "cv.pdf" "application/pdf"
      "resume text" (.error rlErr429) (.ok "<p>x</p>")).1.status ≠ "skipped" := by
  refine ⟨by decide, by decide, by decide⟩

/-- C3 (amended): resubmitting bytes whose hash is already stored returns
the existing ResumeRecord's id with status "skipped" — leaving the store
unchanged, so no second ResumeRecord or CandidateRecord is created — only
when a CandidateRecord exists for it (the first submission's extraction
completed); when no CandidateRecord exists (extraction still queued), the
resubmission falls through the dedup gate, its re-insert hits the
content-hash unique constraint, and the file fails with the store again
unchanged. -/
theorem resume_dedup_amended (hashFn : List Nat → String) (st : UploadStore)
    (buffer : List Nat) (originalname mimetype content : String)
    (eo : Except JsError CandidateInfo) (ao : Except JsError String)
    (r0 : Resume)
    (hr : getResumeByHash st (hashFn buffer) = some r0) :
    (∀ c0, getCandidateByResumeId st r0.id = some c0 →
      processFileWithErrorHandling hashFn st buffer originalname mimetype content eo ao =
        ({ status := "skipped", resumeId := some r0.id, candidateId := some c0.id,
           error := none }, st)) ∧
    (getCandidateByResumeId st r0.id = none →
      (processFileWithErrorHandling hashFn st buffer originalname mimetype content
        eo ao).1.status = "failed" ∧
      (processFileWithErrorHandling hashFn st buffer originalname mimetype content
        eo ao).2 = st) := by
  constructor
  · intro c0 hc0
    simp only [processFileWithErrorHandling, processResumeFile, hr, hc0]
  · intro hc0
    have hr2 : st.resumes.find? (fun r => r.contentHash == hashFn buffer) = some r0 := hr
    have hpmem : r0 ∈ st.resumes := List.mem_of_find?_eq_some hr2
    have hp : (r0.contentHash == hashFn buffer) = true := by
      have := List.find?_some hr2
      simpa using this
    have hany : st.resumes.any (fun r => r.contentHash == hashFn buffer) = true :=
      List.any_eq_true.mpr ⟨r0, hpmem, hp⟩
    simp only [processFileWithErrorHandling, processResumeFile, hr, hc0,
      processFreshUpload, createResume, hany, if_true]
    exact ⟨trivial, trivial⟩

/-- Witness for `resume_dedup_amended`: resubmission while extraction is
still queued fails and leaves the store unchanged. -/
theorem resume_dedup_amended_witness :
    (processFileWithErrorHandling hashConst upStore1 [1, 2, 3] "cv.pdf" "application/pdf"
      "resume text" (.error rlErr429) (.ok "<p>x</p>")).1.status = "failed" ∧
    (processFileWithErrorHandling hashConst upStore1 [1, 2, 3] "cv.pdf" "application/pdf"
      "resume text" (.error rlErr429) (.ok "<p>x</p>")).2 = upStore1 :=
  (resume_dedup_amended hashConst upStore1 [1, 2, 3] "cv.pdf" "application/pdf"
    "resume text" (.error rlErr429) (.ok "<p>x</p>") upResume1 (by decide)).2 (by decide)
